import Mathlib

/-! Shallow embedding of the pdfcraft client-side conversion subsystem:
`src/lib/libreoffice/converter.ts` (the engine lifecycle manager) and
`src/lib/pdf/processors/excel-to-pdf.ts` (the Excel-to-PDF gateway).
Strings that the code inspects structurally (file names) are modelled as
lists of characters; opaque strings (messages, MIME types) stay `String`.
The external WorkerBrowserConverter engine and the browser environment are
inputs describing how their calls would behave. -/

/-- File names are modelled as lists of characters (JS strings). -/
abbrev Str := List Char

/-- JS `name.split('.')`. -/
def splitOnDot : Str → List Str
  | [] => [[]]
  | c :: rest =>
    let r := splitOnDot rest
    if c = '.' then [] :: r
    else
      match r with
      | [] => [[c]]
      | a :: as => (c :: a) :: as

/-- JS `file.name.split('.').pop()?.toLowerCase() || ''` — the lowercased last
dot-separated component of the name (the whole name when it has no dot). -/
def extOf (name : Str) : Str :=
  ((splitOnDot name).getLastD []).map Char.toLower

/-- JS `name.replace(/\.(xlsx?|ods|csv)$/i, '')` — drop a final spreadsheet
extension together with its dot, case-insensitively, when one is present. -/
def stripSheetExt (name : Str) : Str :=
  let low := name.map Char.toLower
  if ('.' :: "xlsx".toList).isSuffixOf low then name.take (name.length - 5)
  else if ('.' :: "xls".toList).isSuffixOf low then name.take (name.length - 4)
  else if ('.' :: "ods".toList).isSuffixOf low then name.take (name.length - 4)
  else if ('.' :: "csv".toList).isSuffixOf low then name.take (name.length - 4)
  else name

/-- Outcome of a HEAD probe for one engine asset URL (external collaborator). -/
inductive ProbeResult where
  | ok (status : Nat)
  | fail (status : Nat)
  | neterr (rendered : String)
deriving DecidableEq, Repr

/-- The browser environment the converter runs in:
cross-origin isolation, SharedArrayBuffer support, and what a HEAD probe of
each URL returns. -/
structure Env where
  crossOriginIsolated : Bool
  hasSharedArrayBuffer : Bool
  probe : String → ProbeResult

instance {ε α : Type} [DecidableEq ε] [DecidableEq α] : DecidableEq (Except ε α)
  | .ok a, .ok b => if h : a = b then .isTrue (by rw [h]) else .isFalse (by simp [h])
  | .ok _, .error _ => .isFalse (by simp)
  | .error _, .ok _ => .isFalse (by simp)
  | .error a, .error b => if h : a = b then .isTrue (by rw [h]) else .isFalse (by simp [h])

/-- Behaviour of the external WorkerBrowserConverter engine for one session:
the (phase, percent) progress events its startup emits, whether its startup
throws (and with which message), and what its convert call returns or
throws. -/
structure Engine where
  initEvents : List (String × ℚ)
  initFails : Option String
  convertResult : Except String (List Nat × String)
deriving DecidableEq, Repr

/-- Structured model of the errors initialization throws in converter.ts. -/
inductive InitError where
  | environmentUnsupported (isolated sab : Bool)
  | assetUnavailable (file : String) (status : Nat)
  | cannotFetch (file : String) (rendered : String)
  | engineStartupFailed (message : String)
deriving DecidableEq, Repr

/-- The thrown message each initialization error carries
(converter.ts lines 141-145, 172, 177; an engine startup failure propagates
the engine's own message). -/
def InitError.message : InitError → String
  | .environmentUnsupported isolated _ =>
      "SharedArrayBuffer is not available (crossOriginIsolated=" ++ toString isolated ++
        "). Your server must set Cross-Origin-Opener-Policy and " ++
        "Cross-Origin-Embedder-Policy headers. See browser console for details."
  | .assetUnavailable file status =>
      "Required file " ++ file ++ " returned HTTP " ++ toString status
  | .cannotFetch file rendered => "Cannot fetch " ++ file ++ ": " ++ rendered
  | .engineStartupFailed message => message

/-- Errors surfaced by the converter's convert method. -/
inductive ConvError where
  | notInitialized
  | engineFailure (message : String)
deriving DecidableEq, Repr

/-- The thrown message each conversion error carries (converter.ts line 190,
or the engine's own rethrown message). -/
def ConvError.message : ConvError → String
  | .notInitialized => "Converter not initialized"
  | .engineFailure m => m

/-- A progress event (`LoadProgress` in converter.ts). -/
structure LoadProgress where
  phase : String
  percent : ℚ
  message : String
deriving DecidableEq, Repr

/-- converter.ts line 26. -/
def LIBREOFFICE_PATH : String := "/libreoffice-wasm/"

/-- The mutable fields of the `LibreOfficeConverter` class: `initialized`,
`initializing`, whether the engine reference is present
(`this.converter !== null`), and the asset base path. -/
structure LibreOfficeConverter where
  initialized : Bool
  initializing : Bool
  hasConverter : Bool
  basePath : String
deriving DecidableEq, Repr

/-- converter.ts lines 45-47: the constructor; JS `basePath || LIBREOFFICE_PATH`
falls back to the default for an absent or empty argument. -/
def LibreOfficeConverter.make (basePath : Option String) : LibreOfficeConverter :=
  ⟨false, false, false,
    match basePath with
    | none => LIBREOFFICE_PATH
    | some p => if p = "" then LIBREOFFICE_PATH else p⟩

/-- Interactions with the external engine: one startup sequence (constructing
the worker and awaiting its initialization), or one convert call. -/
inductive EngineCall where
  | startup
  | convert
deriving DecidableEq, Repr

/-- converter.ts lines 149-155: the asset files probed before startup. -/
def requiredFiles : List String :=
  ["soffice.wasm", "soffice.data", "soffice.js", "soffice.worker.js",
    "browser.worker.global.js"]

/-- converter.ts lines 156-179: HEAD-probe each asset in order at the base
path, stopping at the first failure. Returns the outcome and the URLs
actually probed. -/
def probeFiles (probe : String → ProbeResult) (basePath : String) :
    List String → Except InitError Unit × List String
  | [] => (.ok (), [])
  | f :: rest =>
    match probe (basePath ++ f) with
    | .ok _ =>
      let r := probeFiles probe basePath rest
      (r.1, (basePath ++ f) :: r.2)
    | .fail status => (.error (.assetUnavailable f status), [basePath ++ f])
    | .neterr rendered => (.error (.cannotFetch f rendered), [basePath ++ f])

/-- converter.ts lines 117-182: the cross-origin-isolation and
SharedArrayBuffer preflight, then the asset reachability probes. -/
def checkEnvironment (env : Env) (basePath : String) :
    Except InitError Unit × List String :=
  if env.crossOriginIsolated && env.hasSharedArrayBuffer then
    probeFiles env.probe basePath requiredFiles
  else
    (.error (.environmentUnsupported env.crossOriginIsolated env.hasSharedArrayBuffer), [])

/-- converter.ts line 63. -/
def msgChecking : String := "Checking environment..."

/-- converter.ts line 68. -/
def msgLoadingEngine : String := "Loading conversion engine..."

/-- converter.ts line 104. -/
def msgEngineReady : String := "Conversion engine ready!"

/-- converter.ts line 79: the simplified message the init progress relay
builds from the engine's raw percent. -/
def msgEngineLoading (p : ℚ) : String :=
  "Loading conversion engine (" ++ toString (round p) ++ "%)..."

/-- Everything one initialization call produces: the converter state it
leaves, the progress events delivered to the caller's callback in order, its
result, the engine interactions performed, and the asset URLs probed. -/
structure InitOutcome where
  state : LibreOfficeConverter
  events : List LoadProgress
  result : Except InitError Unit
  calls : List EngineCall
  probed : List String
deriving DecidableEq, Repr

/-- converter.ts lines 59-110: the initialization body that runs when no
other initialization is under way. The `initializing` flag is set for its
duration and cleared in the finally block on every exit, so the states below
record its final value. On an environment failure nothing was constructed;
on an engine startup failure the engine reference was already assigned
(line 70) but `initialized` stays false; on success `initialized` becomes
true and a final ready event at percent 100 is emitted. -/
def initializeBody (s : LibreOfficeConverter) (env : Env) (eng : Engine) : InitOutcome :=
  let check := checkEnvironment env s.basePath
  match check.1 with
  | .error e =>
      ⟨{ s with initializing := false }, [⟨"loading", 0, msgChecking⟩], .error e, [], check.2⟩
  | .ok _ =>
      let fwd := eng.initEvents.map fun pe => LoadProgress.mk pe.1 pe.2 (msgEngineLoading pe.2)
      match eng.initFails with
      | some m =>
          ⟨{ s with hasConverter := true, initializing := false },
            ⟨"loading", 0, msgChecking⟩ :: ⟨"loading", 5, msgLoadingEngine⟩ :: fwd,
            .error (.engineStartupFailed m), [.startup], check.2⟩
      | none =>
          ⟨{ s with hasConverter := true, initialized := true, initializing := false },
            ⟨"loading", 0, msgChecking⟩ :: ⟨"loading", 5, msgLoadingEngine⟩ ::
              (fwd ++ [⟨"ready", 100, msgEngineReady⟩]),
            .ok (), [.startup], check.2⟩

/-- converter.ts lines 49-111. When already initialized the call returns at
once (line 50); when another initialization is in flight the caller waits for
the `initializing` flag to clear and then returns success, performing no
engine work and mutating nothing itself (lines 52-57); otherwise the body
runs. -/
def LibreOfficeConverter.initialize (s : LibreOfficeConverter) (env : Env) (eng : Engine) :
    InitOutcome :=
  if s.initialized then ⟨s, [], .ok (), [], []⟩
  else if s.initializing then ⟨s, [], .ok (), [], []⟩
  else initializeBody s env eng

/-- converter.ts lines 184-186. -/
def LibreOfficeConverter.isReady (s : LibreOfficeConverter) : Bool :=
  s.initialized && s.hasConverter

/-- A returned blob: byte data plus the declared content type. -/
structure Blob where
  data : List Nat
  mime : String
deriving DecidableEq, Repr

/-- A caller-supplied file: its name, declared MIME type and bytes. -/
structure File where
  name : Str
  type : String
  data : List Nat
deriving DecidableEq, Repr

/-- Everything one convert call produces. -/
structure ConvertOutcome where
  state : LibreOfficeConverter
  result : Except ConvError Blob
  calls : List EngineCall
deriving DecidableEq, Repr

/-- converter.ts lines 188-219: convert guards only on the engine reference
being present (line 189), delegates to the engine, and copies the result into
a fresh blob carrying the engine's declared mimeType; a thrown engine error
is logged and rethrown with the state untouched. -/
def LibreOfficeConverter.convert (s : LibreOfficeConverter) (_file : File) (eng : Engine) :
    ConvertOutcome :=
  if s.hasConverter then
    match eng.convertResult with
    | .error m => ⟨s, .error (.engineFailure m), [.convert]⟩
    | .ok (data, mime) => ⟨s, .ok ⟨data, mime⟩, [.convert]⟩
  else ⟨s, .error .notInitialized, []⟩

/-- converter.ts lines 221-223: convertToPdf fixes the output format. -/
def LibreOfficeConverter.convertToPdf (s : LibreOfficeConverter) (file : File) (eng : Engine) :
    ConvertOutcome :=
  LibreOfficeConverter.convert s file eng

/-- converter.ts lines 246-251: the module-level singleton accessor. Takes
the current value of `converterInstance` and returns the converter handed to
the caller together with the updated `converterInstance`. -/
def getLibreOfficeConverter (inst : Option LibreOfficeConverter) (basePath : Option String) :
    LibreOfficeConverter × Option LibreOfficeConverter :=
  match inst with
  | some c => (c, some c)
  | none =>
    let c := LibreOfficeConverter.make basePath
    (c, some c)

/-- The contested concurrent scenario of converter.ts lines 49-59: caller A
arrives first on an idle handle and runs the body; caller B arrives while A
holds the `initializing` flag, so B takes the wait branch (lines 52-57) and,
once the flag clears, returns without engine work or an outcome of its own.
The pair is (A's full outcome, B's returned result). -/
def twoCallerInitialize (s : LibreOfficeConverter) (env : Env) (eng : Engine) :
    InitOutcome × Except InitError Unit :=
  (initializeBody s env eng,
    ( LibreOfficeConverter.initialize { s with initializing := true } env eng).result)

/-- Modelled from the spec: the error kinds the gateway uses (`PDFErrorCode`
from `@/types/pdf` is not among the staged sources); the constructor names
follow the identifiers the processor references. -/
inductive PDFErrorCode where
  | INVALID_OPTIONS
  | FILE_TYPE_INVALID
  | PROCESSING_CANCELLED
  | PROCESSING_FAILED
deriving DecidableEq, Repr

/-- Modelled from the spec: the structured ConversionResult — the success
variant carries the artifact blob, output file name and format metadata; the
failure variant carries an error kind, a user-facing message and optional
diagnostic detail. -/
structure ProcessOutput where
  success : Bool
  artifact : Option Blob
  filename : Option Str
  metadataFormat : Option String
  code : Option PDFErrorCode
  message : Option String
  detail : Option String
deriving DecidableEq, Repr

/-- Modelled from the spec: `BasePDFProcessor.createErrorOutput` builds the
failure variant (not among the staged sources). -/
def createErrorOutput (code : PDFErrorCode) (message : String) (detail : Option String) :
    ProcessOutput :=
  ⟨false, none, none, none, some code, some message, detail⟩

/-- Modelled from the spec: `BasePDFProcessor.createSuccessOutput` builds the
success variant (not among the staged sources). -/
def createSuccessOutput (blob : Blob) (filename : Str) (format : String) : ProcessOutput :=
  ⟨true, some blob, some filename, some format, none, none, none⟩

/-- excel-to-pdf.ts line 45. -/
def validExts : List Str := ["xlsx".toList, "xls".toList, "ods".toList, "csv".toList]

/-- excel-to-pdf.ts line 38. -/
def msgExactlyOne : String := "Please provide exactly one Excel spreadsheet."

/-- excel-to-pdf.ts line 50. -/
def msgInvalidType : String := "Invalid file type. Please upload .xlsx, .xls, .ods, or .csv."

/-- excel-to-pdf.ts line 56. -/
def msgFirstLoad : String := "Loading conversion engine (first time may take 1-2 minutes)..."

/-- excel-to-pdf.ts lines 65 and 73. -/
def msgCancelled : String := "Processing was cancelled."

/-- excel-to-pdf.ts line 85. -/
def msgConvertFailed : String := "Failed to convert Excel to PDF."

/-- excel-to-pdf.ts line 68. -/
def msgConverting : String := "Converting Excel to PDF..."

/-- excel-to-pdf.ts line 76. -/
def msgComplete : String := "Conversion complete!"

/-- excel-to-pdf.ts line 61: engine init progress is forwarded to the caller
scaled into the reserved sub-range, `Math.min(progress.percent * 0.8, 80)`. -/
def scalePercent (p : ℚ) : ℚ := min (p * (4 / 5)) 80

/-- Everything one `process` call produces: the structured output, the
(percent, message) progress events delivered to the caller's callback in
order, the engine interactions performed, and the converter state left in
the singleton. -/
structure ProcessRun where
  output : ProcessOutput
  progress : List (ℚ × String)
  engineCalls : List EngineCall
  state : LibreOfficeConverter
deriving DecidableEq, Repr

/-- excel-to-pdf.ts lines 26-89: the Excel-to-PDF gateway. `c1` and `c2` are
the values `this.checkCancelled()` observes at its two call sites — after
initialization (line 64) and after the conversion call (line 72); the flag
itself lives in `BasePDFProcessor`, outside the staged sources, and is
modelled from the spec as a caller-set cooperative flag read at the
checkpoints. `s` is the singleton converter state `getLibreOfficeConverter`
returns; engine init progress is forwarded scaled by `min (percent * 0.8) 80`
(line 61). -/
def ExcelToPDFProcessor.process (files : List File) (c1 c2 : Bool)
    (s : LibreOfficeConverter) (env : Env) (eng : Engine) : ProcessRun :=
  match files with
  | [file] =>
    if extOf file.name ∈ validExts then
      let init := LibreOfficeConverter.initialize s env eng
      let p1 := (5, msgFirstLoad) ::
        init.events.map fun e => (scalePercent e.percent, e.message)
      match init.result with
      | .error e =>
          ⟨createErrorOutput .PROCESSING_FAILED msgConvertFailed (some e.message),
            p1, init.calls, init.state⟩
      | .ok _ =>
        if c1 then
          ⟨createErrorOutput .PROCESSING_CANCELLED msgCancelled none,
            p1, init.calls, init.state⟩
        else
          let conv := LibreOfficeConverter.convertToPdf init.state file eng
          let p2 := p1 ++ [(85, msgConverting)]
          match conv.result with
          | .error e =>
              ⟨createErrorOutput .PROCESSING_FAILED msgConvertFailed (some e.message),
                p2, init.calls ++ conv.calls, conv.state⟩
          | .ok blob =>
            if c2 then
              ⟨createErrorOutput .PROCESSING_CANCELLED msgCancelled none,
                p2, init.calls ++ conv.calls, conv.state⟩
            else
              ⟨createSuccessOutput blob (stripSheetExt file.name ++ ".pdf".toList) "pdf",
                p2 ++ [(100, msgComplete)], init.calls ++ conv.calls, conv.state⟩
    else
      ⟨createErrorOutput .FILE_TYPE_INVALID msgInvalidType
          (some (if file.type = "" then String.mk file.name else file.type)),
        [], [], s⟩
  | _ =>
      ⟨createErrorOutput .INVALID_OPTIONS msgExactlyOne
          (some ("Received " ++ toString files.length ++ " file(s).")),
        [], [], s⟩

/-- A browser environment where every preflight succeeds. -/
def okEnv : Env := ⟨true, true, fun _ => .ok 200⟩

/-- A non-cross-origin-isolated environment. -/
def badEnv : Env := ⟨false, true, fun _ => .ok 200⟩

/-- An environment whose soffice.data probe returns HTTP 404. -/
def env404 : Env :=
  ⟨true, true, fun url => if url = LIBREOFFICE_PATH ++ "soffice.data" then .fail 404 else .ok 200⟩

/-- An engine whose startup emits no progress events and whose convert
succeeds. -/
def quietEngine : Engine := ⟨[], none, .ok ([37, 80], "application/pdf")⟩

/-- An engine whose startup throws. -/
def crashEngine : Engine := ⟨[], some "worker crashed", .ok ([1], "application/pdf")⟩

/-- An engine whose convert call throws. -/
def throwingEngine : Engine := ⟨[], none, .error "conversion failed in worker"⟩

/-- An engine emitting two well-behaved startup progress events. -/
def steadyEngine : Engine :=
  ⟨[("loading", 10), ("loading", 60)], none, .ok ([37, 80], "application/pdf")⟩

/-- A fresh converter handle at the default base path. -/
def freshConverter : LibreOfficeConverter := LibreOfficeConverter.make none

/-- A well-formed input spreadsheet. -/
def sampleXlsx : File := ⟨"report.xlsx".toList, "application/vnd.ms-excel", [80, 75, 3, 4]⟩

/-- A file whose extension is not in the allow-list. -/
def sampleTxt : File := ⟨"notes.txt".toList, "text/plain", [104, 105]⟩

/-! Auxiliary lemmas about the string operations. -/

theorem splitOnDot_ne_nil (s : Str) : splitOnDot s ≠ [] := by
  match s with
  | [] => simp [splitOnDot]
  | c :: rest =>
    simp only [splitOnDot]
    by_cases hc : c = '.'
    · simp [hc]
    · simp only [hc, if_false]
      match h : splitOnDot rest with
      | [] => simp
      | a :: as => simp

theorem splitOnDot_append_dot (xs ys : Str) :
    splitOnDot (xs ++ '.' :: ys) = splitOnDot xs ++ splitOnDot ys := by
  induction xs with
  | nil => simp [splitOnDot]
  | cons c rest ih =>
    by_cases hc : c = '.'
    · simp [splitOnDot, hc, ih]
    · simp only [List.cons_append, splitOnDot, List.append_eq, if_neg hc, ih]
      match h : splitOnDot rest with
      | [] => exact absurd h (splitOnDot_ne_nil rest)
      | a :: as => simp

theorem splitOnDot_no_dot (ys : Str) (h : '.' ∉ ys) : splitOnDot ys = [ys] := by
  induction ys with
  | nil => simp [splitOnDot]
  | cons c rest ih =>
    simp only [List.mem_cons, not_or] at h
    have hr := ih h.2
    simp only [splitOnDot, hr]
    simp [Ne.symm h.1]

/-- The lowercased extension the processor computes for a name of the form
`base ++ "." ++ ext` with a dot-free `ext` is the lowercase of `ext`. -/
theorem extOf_append_dot (base ext : Str) (h : '.' ∉ ext) :
    extOf (base ++ '.' :: ext) = ext.map Char.toLower := by
  unfold extOf
  rw [splitOnDot_append_dot, splitOnDot_no_dot ext h]
  rw [List.getLastD_concat]

theorem suffix_trim {l a b : List Char} (h : l <:+ a ++ b) (hl : l.length ≤ b.length) :
    l <:+ b := by
  rcases List.suffix_or_suffix_of_suffix h (List.suffix_append a b) with h1 | h1
  · exact h1
  · have hlen : b.length = l.length := le_antisymm (h1.length_le) hl
    rw [h1.eq_of_length hlen]

theorem getLast?_of_suffix {l₁ l₂ : List Char} (h : l₁ <:+ l₂) (hne : l₁ ≠ []) :
    l₂.getLast? = l₁.getLast? := by
  obtain ⟨t, rfl⟩ := h
  rw [List.getLast?_append]
  match hq : l₁.getLast? with
  | some a => rfl
  | none => exact absurd (List.getLast?_eq_none_iff.mp hq) hne

/-- A list cannot be a suffix of another whose last element differs. -/
theorem not_suffixOf_of_getLast (w l : List Char) (c c2 : Char) (hw : w ≠ [])
    (hwl : w.getLast? = some c) (hll : l.getLast? = some c2) (hne : c ≠ c2) :
    w.isSuffixOf l = false := by
  rw [Bool.eq_false_iff]
  intro hcon
  rw [List.isSuffixOf_iff_suffix] at hcon
  have heq := getLast?_of_suffix hcon hw
  rw [hll, hwl] at heq
  exact hne (by injection heq with hx; exact hx.symm)

/-- Stripping the spreadsheet extension from `base ++ "." ++ ext` recovers
`base` whenever the lowercased `ext` is one of the four allowed extensions. -/
theorem stripSheetExt_append (base ext : Str) (h : ext.map Char.toLower ∈ validExts) :
    stripSheetExt (base ++ '.' :: ext) = base := by
  have hlow : (base ++ '.' :: ext).map Char.toLower =
      base.map Char.toLower ++ '.' :: ext.map Char.toLower := by
    simp [List.map_append]
  have hlen : (base ++ '.' :: ext).length = base.length + (ext.length + 1) := by
    simp [List.length_append]
  simp only [validExts, List.mem_cons, List.not_mem_nil, or_false] at h
  have hsuf : ('.' :: ext.map Char.toLower) <:+ ((base ++ '.' :: ext).map Char.toLower) := by
    rw [hlow]
    exact List.suffix_append _ _
  have hlast : ((base ++ '.' :: ext).map Char.toLower).getLast? =
      ('.' :: ext.map Char.toLower).getLast? :=
    getLast?_of_suffix hsuf (by simp)
  unfold stripSheetExt
  rcases h with h | h | h | h
  -- ext lowercases to xlsx
  · have he : ext.length = 4 := by
      have h' := congrArg List.length h
      rw [List.length_map] at h'
      exact h'
    have h1 : ('.' :: "xlsx".toList).isSuffixOf ((base ++ '.' :: ext).map Char.toLower)
        = true := by
      rw [List.isSuffixOf_iff_suffix, ← h]
      exact hsuf
    simp only [h1, if_true]
    rw [hlen]
    exact List.take_left' (by omega)
  -- ext lowercases to xls
  · have he : ext.length = 3 := by
      have h' := congrArg List.length h
      rw [List.length_map] at h'
      exact h'
    rw [h] at hlast
    have h1 := not_suffixOf_of_getLast ('.' :: "xlsx".toList)
      ((base ++ '.' :: ext).map Char.toLower) 'x' 's' (by simp) (by decide)
      (hlast.trans (by decide)) (by decide)
    have h2 : ('.' :: "xls".toList).isSuffixOf ((base ++ '.' :: ext).map Char.toLower)
        = true := by
      rw [List.isSuffixOf_iff_suffix, ← h]
      exact hsuf
    simp only [h1, h2, if_true, Bool.false_eq_true, if_false]
    rw [hlen]
    exact List.take_left' (by omega)
  -- ext lowercases to ods
  · have he : ext.length = 3 := by
      have h' := congrArg List.length h
      rw [List.length_map] at h'
      exact h'
    rw [h] at hlast
    have h1 := not_suffixOf_of_getLast ('.' :: "xlsx".toList)
      ((base ++ '.' :: ext).map Char.toLower) 'x' 's' (by simp) (by decide)
      (hlast.trans (by decide)) (by decide)
    have h2 : ('.' :: "xls".toList).isSuffixOf ((base ++ '.' :: ext).map Char.toLower)
        = false := by
      rw [Bool.eq_false_iff]
      intro hcon
      rw [List.isSuffixOf_iff_suffix, hlow, h] at hcon
      have htr := suffix_trim hcon (by decide)
      have heq := htr.eq_of_length (by decide)
      exact absurd heq (by decide)
    have h3 : ('.' :: "ods".toList).isSuffixOf ((base ++ '.' :: ext).map Char.toLower)
        = true := by
      rw [List.isSuffixOf_iff_suffix, ← h]
      exact hsuf
    simp only [h1, h2, h3, if_true, Bool.false_eq_true, if_false]
    rw [hlen]
    exact List.take_left' (by omega)
  -- ext lowercases to csv
  · have he : ext.length = 3 := by
      have h' := congrArg List.length h
      rw [List.length_map] at h'
      exact h'
    rw [h] at hlast
    have h1 := not_suffixOf_of_getLast ('.' :: "xlsx".toList)
      ((base ++ '.' :: ext).map Char.toLower) 'x' 'v' (by simp) (by decide)
      (hlast.trans (by decide)) (by decide)
    have h2 := not_suffixOf_of_getLast ('.' :: "xls".toList)
      ((base ++ '.' :: ext).map Char.toLower) 's' 'v' (by simp) (by decide)
      (hlast.trans (by decide)) (by decide)
    have h3 := not_suffixOf_of_getLast ('.' :: "ods".toList)
      ((base ++ '.' :: ext).map Char.toLower) 's' 'v' (by simp) (by decide)
      (hlast.trans (by decide)) (by decide)
    have h4 : ('.' :: "csv".toList).isSuffixOf ((base ++ '.' :: ext).map Char.toLower)
        = true := by
      rw [List.isSuffixOf_iff_suffix, ← h]
      exact hsuf
    simp only [h1, h2, h3, h4, if_true, Bool.false_eq_true, if_false]
    rw [hlen]
    exact List.take_left' (by omega)

/-! Auxiliary lemmas about progress scaling. -/

theorem scalePercent_mono {p q : ℚ} (h : p ≤ q) : scalePercent p ≤ scalePercent q := by
  unfold scalePercent
  exact min_le_min (by nlinarith) le_rfl

theorem scalePercent_le_80 (p : ℚ) : scalePercent p ≤ 80 := min_le_right _ _

theorem le_scalePercent {p : ℚ} (h : 5 ≤ p) : 4 ≤ scalePercent p := by
  unfold scalePercent
  refine le_min (by nlinarith) (by norm_num)

theorem scalePercent_100 : scalePercent 100 = 80 := by
  unfold scalePercent
  norm_num

theorem chain_tail_scaled (l : List (String × ℚ))
    (hchain : List.Chain' (· ≤ ·) (l.map Prod.snd)) (h5 : ∀ pe ∈ l, 5 ≤ pe.2) :
    List.Chain' (· ≤ ·)
      (scalePercent 0 :: scalePercent 5 ::
        ((l.map fun pe => scalePercent pe.2) ++ [scalePercent 100, 85, 100])) := by
  rw [List.chain'_cons']
  constructor
  · intro y hy
    simp only [List.head?_cons, Option.mem_def, Option.some.injEq] at hy
    rw [← hy]
    exact scalePercent_mono (by norm_num)
  rw [List.chain'_cons']
  constructor
  · intro y hy
    match l with
    | [] =>
      simp only [List.map_nil, List.nil_append, List.head?_cons, Option.mem_def,
        Option.some.injEq] at hy
      rw [← hy, scalePercent_100]
      have : scalePercent 5 ≤ scalePercent 100 := scalePercent_mono (by norm_num)
      rw [scalePercent_100] at this
      exact this
    | pe :: rest =>
      simp only [List.map_cons, List.cons_append, List.head?_cons, Option.mem_def,
        Option.some.injEq] at hy
      rw [← hy]
      exact scalePercent_mono (h5 pe (by simp))
  rw [List.chain'_append]
  refine ⟨?_, ?_, ?_⟩
  · rw [List.chain'_map]
    have base := (List.chain'_map Prod.snd).mp hchain
    exact base.imp (fun a b hab => scalePercent_mono hab)
  · rw [scalePercent_100]
    simp only [List.chain'_cons, List.chain'_singleton, and_true]
    norm_num
  · intro x hx y hy
    simp only [List.head?_cons, Option.mem_def, Option.some.injEq] at hy
    have hmem : x ∈ l.map fun pe => scalePercent pe.2 :=
      List.mem_of_mem_getLast? hx
    obtain ⟨pe, _, hpe⟩ := List.mem_map.mp hmem
    rw [← hy, ← hpe, scalePercent_100]
    exact scalePercent_le_80 pe.2

/-- Characterization of a successful `process` run: the input must have been a
single allowed file, neither checkpoint observed cancellation, initialization
and the engine conversion both succeeded, and the run is the success record
built from them. -/
theorem process_success_run (files : List File) (c1 c2 : Bool) (s : LibreOfficeConverter)
    (env : Env) (eng : Engine)
    (hsucc : ( ExcelToPDFProcessor.process files c1 c2 s env eng).output.success = true) :
    ∃ file d m, files = [file] ∧ extOf file.name ∈ validExts ∧ c1 = false ∧ c2 = false ∧
      eng.convertResult = Except.ok (d, m) ∧
      ( LibreOfficeConverter.initialize s env eng).result = Except.ok () ∧
      ( LibreOfficeConverter.initialize s env eng).state.hasConverter = true ∧
      ExcelToPDFProcessor.process files c1 c2 s env eng =
        ⟨createSuccessOutput ⟨d, m⟩ (stripSheetExt file.name ++ ".pdf".toList) "pdf",
          ((5, msgFirstLoad) ::
              ( LibreOfficeConverter.initialize s env eng).events.map
                (fun e => (scalePercent e.percent, e.message)) ++ [(85, msgConverting)]) ++
            [(100, msgComplete)],
          ( LibreOfficeConverter.initialize s env eng).calls ++ [EngineCall.convert],
          ( LibreOfficeConverter.initialize s env eng).state⟩ := by
  unfold ExcelToPDFProcessor.process at hsucc ⊢
  match files with
  | [] => simp [createErrorOutput] at hsucc
  | f1 :: f2 :: rest => simp [createErrorOutput] at hsucc
  | [file] =>
    by_cases hext : extOf file.name ∈ validExts
    · simp only [hext, if_true] at hsucc ⊢
      match hres : ( LibreOfficeConverter.initialize s env eng).result with
      | .error e => simp [hres, createErrorOutput] at hsucc
      | .ok u =>
        simp only [hres] at hsucc ⊢
        by_cases hc1 : c1 = true
        · simp [hc1, createErrorOutput] at hsucc
        · rw [Bool.not_eq_true] at hc1
          simp only [hc1, Bool.false_eq_true, if_false] at hsucc ⊢
          simp only [ LibreOfficeConverter.convertToPdf, LibreOfficeConverter.convert]
            at hsucc ⊢
          by_cases hhc : ( LibreOfficeConverter.initialize s env eng).state.hasConverter = true
          · simp only [hhc, if_true] at hsucc ⊢
            match hcv : eng.convertResult with
            | .error m => simp [hcv, createErrorOutput] at hsucc
            | .ok dm =>
              simp only [hcv] at hsucc ⊢
              by_cases hc2 : c2 = true
              · simp [hc2, createErrorOutput] at hsucc
              · rw [Bool.not_eq_true] at hc2
                simp only [hc2, Bool.false_eq_true, if_false] at hsucc ⊢
                refine ⟨file, dm.1, dm.2, ?_, ?_, ?_, ?_, ?_, ?_, ?_, ?_⟩ <;>
                  first
                  | exact hext
                  | rfl
                  | trivial
          · simp only [hhc, Bool.false_eq_true, if_false] at hsucc
            simp [createErrorOutput] at hsucc
    · simp [hext, createErrorOutput] at hsucc

/-! Claim theorems. -/

/-- C7: for every input whose files list has length N with N not equal to 1,
`process` returns the invalid-input failure (the processor's
`INVALID_OPTIONS` code) naming the actual file count in its detail, and the
engine singleton is never touched: no progress events, no engine calls, and
the converter state is returned unchanged. -/
theorem c7_invalid_count (files : List File) (c1 c2 : Bool) (s : LibreOfficeConverter)
    (env : Env) (eng : Engine) (h : files.length ≠ 1) :
    ExcelToPDFProcessor.process files c1 c2 s env eng =
      ⟨createErrorOutput PDFErrorCode.INVALID_OPTIONS msgExactlyOne
          (some ("Received " ++ toString files.length ++ " file(s).")),
        [], [], s⟩ := by
  unfold ExcelToPDFProcessor.process
  match files with
  | [] => rfl
  | [f] => exact absurd rfl h
  | f1 :: f2 :: rest => rfl

/-- C7 witness: an empty files list is rejected with the invalid-input
failure naming the count 0, with no engine interaction. -/
theorem c7_witness :
    ExcelToPDFProcessor.process [] false false freshConverter okEnv quietEngine =
      ⟨createErrorOutput PDFErrorCode.INVALID_OPTIONS msgExactlyOne
          (some ("Received " ++ toString ([] : List File).length ++ " file(s).")),
        [], [], freshConverter⟩ :=
  c7_invalid_count [] false false freshConverter okEnv quietEngine (by decide)

/-- C8: a single file whose name has the form `base.ext` (so the extension
after the last dot is defined) with lowercased extension outside the
allow-list is rejected with the file-type failure naming the received type
(the declared MIME type, or the file name when that is empty), and the
engine is never touched. -/
theorem c8_unsupported_type (base ext : Str) (f : File) (c1 c2 : Bool)
    (s : LibreOfficeConverter) (env : Env) (eng : Engine)
    (hname : f.name = base ++ '.' :: ext) (hdot : '.' ∉ ext)
    (hext : ext.map Char.toLower ∉ validExts) :
    ExcelToPDFProcessor.process [f] c1 c2 s env eng =
      ⟨createErrorOutput PDFErrorCode.FILE_TYPE_INVALID msgInvalidType
          (some (if f.type = "" then String.mk f.name else f.type)),
        [], [], s⟩ := by
  have hno : extOf f.name ∉ validExts := by
    rw [hname, extOf_append_dot base ext hdot]
    exact hext
  simp only [ ExcelToPDFProcessor.process]
  rw [if_neg hno]

/-- C8 witness: notes.txt is rejected with the file-type failure and no
engine interaction. -/
theorem c8_witness :
    ExcelToPDFProcessor.process [sampleTxt] false false freshConverter okEnv quietEngine =
      ⟨createErrorOutput PDFErrorCode.FILE_TYPE_INVALID msgInvalidType
          (some (if sampleTxt.type = "" then String.mk sampleTxt.name else sampleTxt.type)),
        [], [], freshConverter⟩ :=
  c8_unsupported_type "notes".toList "txt".toList sampleTxt false false freshConverter
    okEnv quietEngine (by decide) (by decide) (by decide)

/-- C10: the accessor creates the converter once — a second call returns the
same instance, with the stored singleton unchanged, silently ignoring its
basePath argument — and the base path is fixed by the first call, defaulting
to /libreoffice-wasm/ when absent. -/
theorem c10_singleton (bp1 bp2 : Option String) :
    (getLibreOfficeConverter (getLibreOfficeConverter none bp1).2 bp2).1 =
        (getLibreOfficeConverter none bp1).1 ∧
    (getLibreOfficeConverter (getLibreOfficeConverter none bp1).2 bp2).2 =
        some (getLibreOfficeConverter none bp1).1 ∧
    (getLibreOfficeConverter none bp1).1 = LibreOfficeConverter.make bp1 ∧
    (getLibreOfficeConverter none none).1.basePath = LIBREOFFICE_PATH :=
  ⟨rfl, rfl, rfl, rfl⟩

/-- C2 counterexample: after an engine-startup failure the handle is not
ready (`initialized` is false) although the engine reference is present; a
convert call in that reachable state does not fail with the
not-initialized error — it invokes the engine's convert capability and
succeeds. -/
theorem c2_counterexample :
    LibreOfficeConverter.isReady
        ( LibreOfficeConverter.initialize freshConverter okEnv crashEngine).state = false ∧
    LibreOfficeConverter.convert
        ( LibreOfficeConverter.initialize freshConverter okEnv crashEngine).state
        sampleXlsx quietEngine =
      ⟨( LibreOfficeConverter.initialize freshConverter okEnv crashEngine).state,
        .ok ⟨[37, 80], "application/pdf"⟩, [EngineCall.convert]⟩ :=
  ⟨rfl, rfl⟩

/-- C2 (amended): convert guards only on the engine reference, not on
`isReady()`: whenever the underlying engine reference is absent, convert
fails with the Converter-not-initialized error and the engine's convert
capability is not invoked; when the reference is present, convert proceeds
even if the `initialized` flag is false. -/
theorem c2_convert_guard (s : LibreOfficeConverter) (f : File) (eng : Engine)
    (h : s.hasConverter = false) :
    LibreOfficeConverter.convert s f eng = ⟨s, .error ConvError.notInitialized, []⟩ := by
  unfold LibreOfficeConverter.convert
  rw [h]
  rfl

/-- C2 witness: a fresh handle has no engine reference, so convert fails
with the not-initialized error without touching the engine. -/
theorem c2_witness :
    LibreOfficeConverter.convert freshConverter sampleXlsx quietEngine =
      ⟨freshConverter, .error ConvError.notInitialized, []⟩ :=
  c2_convert_guard freshConverter sampleXlsx quietEngine rfl

/-- C4 counterexample: with a non-isolated environment the first caller's
initialization fails with the environment error while the concurrent waiter
returns success — the two callers do not observe the same outcome. -/
theorem c4_counterexample :
    (twoCallerInitialize freshConverter badEnv quietEngine).1.result =
        .error (InitError.environmentUnsupported false true) ∧
    (twoCallerInitialize freshConverter badEnv quietEngine).2 = .ok () ∧
    (twoCallerInitialize freshConverter badEnv quietEngine).1.result ≠
      (twoCallerInitialize freshConverter badEnv quietEngine).2 :=
  ⟨rfl, rfl, by decide⟩

/-- C4 (amended): a caller that arrives while an initialization is in flight
starts no second engine startup sequence — at most one startup runs in
total — and waits for the flag to clear, but then returns success
unconditionally; it observes the same outcome as the first caller only when
the first caller succeeded. -/
theorem c4_waiter (s : LibreOfficeConverter) (env : Env) (eng : Engine) :
    (twoCallerInitialize s env eng).2 = .ok () ∧
    (twoCallerInitialize s env eng).1.calls.count EngineCall.startup ≤ 1 ∧
    ((twoCallerInitialize s env eng).1.result = .ok () →
      (twoCallerInitialize s env eng).1.result = (twoCallerInitialize s env eng).2) := by
  have hB : (twoCallerInitialize s env eng).2 = .ok () := by
    unfold twoCallerInitialize LibreOfficeConverter.initialize
    by_cases hi : s.initialized = true <;> simp [hi]
  refine ⟨hB, ?_, fun h => by rw [h, hB]⟩
  unfold twoCallerInitialize initializeBody
  rcases hch : (checkEnvironment env s.basePath).1 with e | u
  · simp only [hch]
    decide
  · simp only [hch]
    rcases hif : eng.initFails with _ | m <;> simp only [hif] <;> decide

/-- C4 witness: on a fresh handle in a healthy environment the waiter
returns success, at most one startup runs, and both callers agree when the
first succeeds. -/
theorem c4_witness :
    (twoCallerInitialize freshConverter okEnv quietEngine).2 = .ok () ∧
    (twoCallerInitialize freshConverter okEnv quietEngine).1.calls.count
        EngineCall.startup ≤ 1 ∧
    ((twoCallerInitialize freshConverter okEnv quietEngine).1.result = .ok () →
      (twoCallerInitialize freshConverter okEnv quietEngine).1.result =
        (twoCallerInitialize freshConverter okEnv quietEngine).2) :=
  c4_waiter freshConverter okEnv quietEngine

theorem probeFiles_fail (probe : String → ProbeResult) (basePath : String)
    (pre : List String) (f : String) (rest : List String) (status : Nat)
    (hpre : ∀ g ∈ pre, ∃ st, probe (basePath ++ g) = .ok st)
    (hf : probe (basePath ++ f) = .fail status) :
    probeFiles probe basePath (pre ++ f :: rest) =
      (.error (.assetUnavailable f status), (pre ++ [f]).map (fun g => basePath ++ g)) := by
  induction pre with
  | nil =>
    simp only [List.nil_append, probeFiles, hf]
    rfl
  | cons g gs ih =>
    obtain ⟨st, hg⟩ := hpre g (by simp)
    simp only [List.cons_append, probeFiles, List.append_eq, hg]
    rw [ih (fun x hx => hpre x (by simp [hx]))]
    simp

/-- C6: when the environment preflight passes, every asset before a given
one probes OK, and that asset's HEAD probe returns a non-success HTTP
status, initialization fails with AssetUnavailable naming exactly that file
and status, only the assets up to and including it are probed (no later
asset), no engine startup runs, and the initialized flag remains false. -/
theorem c6_asset_unavailable (s : LibreOfficeConverter) (env : Env) (eng : Engine)
    (pre : List String) (f : String) (rest : List String) (status : Nat)
    (hinit : s.initialized = false) (hflag : s.initializing = false)
    (hiso : env.crossOriginIsolated = true) (hsab : env.hasSharedArrayBuffer = true)
    (hsplit : requiredFiles = pre ++ f :: rest)
    (hpre : ∀ g ∈ pre, ∃ st, env.probe (s.basePath ++ g) = .ok st)
    (hf : env.probe (s.basePath ++ f) = .fail status) :
    ( LibreOfficeConverter.initialize s env eng).result =
        .error (InitError.assetUnavailable f status) ∧
    ( LibreOfficeConverter.initialize s env eng).probed =
        (pre ++ [f]).map (fun g => s.basePath ++ g) ∧
    ( LibreOfficeConverter.initialize s env eng).state.initialized = false ∧
    ( LibreOfficeConverter.initialize s env eng).calls = [] := by
  have hchk : checkEnvironment env s.basePath =
      (.error (.assetUnavailable f status), (pre ++ [f]).map (fun g => s.basePath ++ g)) := by
    unfold checkEnvironment
    rw [hiso, hsab]
    simp only [Bool.and_self, if_true]
    rw [hsplit]
    exact probeFiles_fail env.probe s.basePath pre f rest status hpre hf
  unfold LibreOfficeConverter.initialize
  rw [hinit, hflag]
  simp only [Bool.false_eq_true, if_false]
  unfold initializeBody
  rw [hchk]
  exact ⟨rfl, rfl, hinit, rfl⟩

/-- C6 witness: with soffice.data returning 404, initialization fails
naming soffice.data and 404, probes stop after soffice.data, nothing starts,
and the handle stays uninitialized. -/
theorem c6_witness :
    ( LibreOfficeConverter.initialize freshConverter env404 quietEngine).result =
        .error (InitError.assetUnavailable "soffice.data" 404) ∧
    ( LibreOfficeConverter.initialize freshConverter env404 quietEngine).probed =
        (["soffice.wasm"] ++ ["soffice.data"]).map
          (fun g => freshConverter.basePath ++ g) ∧
    ( LibreOfficeConverter.initialize freshConverter env404 quietEngine).state.initialized
        = false ∧
    ( LibreOfficeConverter.initialize freshConverter env404 quietEngine).calls = [] :=
  c6_asset_unavailable freshConverter env404 quietEngine ["soffice.wasm"] "soffice.data"
    ["soffice.js", "soffice.worker.js", "browser.worker.global.js"] 404 rfl rfl rfl rfl
    (by decide)
    (by
      intro g hg
      simp only [List.mem_singleton] at hg
      subst hg
      exact ⟨200, by decide⟩)
    (by decide)

theorem initialize_ok_state (s : LibreOfficeConverter) (env : Env) (eng : Engine)
    (h0 : s.initialized = false) (h1 : s.initializing = false)
    (hres : ( LibreOfficeConverter.initialize s env eng).result = Except.ok ()) :
    ( LibreOfficeConverter.initialize s env eng).state =
      { s with hasConverter := true, initialized := true, initializing := false } := by
  unfold LibreOfficeConverter.initialize at hres ⊢
  rw [h0, h1] at hres ⊢
  simp only [Bool.false_eq_true, if_false] at hres ⊢
  simp only [initializeBody] at hres ⊢
  rcases hch : (checkEnvironment env s.basePath).1 with e | u
  · simp only [hch] at hres
    simp at hres
  · simp only [hch] at hres ⊢
    rcases hif : eng.initFails with _ | m
    · simp only [hif]
    · simp only [hif] at hres
      simp at hres

theorem initialize_no_convert (s : LibreOfficeConverter) (env : Env) (eng : Engine) :
    EngineCall.convert ∉ ( LibreOfficeConverter.initialize s env eng).calls := by
  unfold LibreOfficeConverter.initialize initializeBody
  by_cases h0 : s.initialized = true
  · simp [h0]
  · simp only [h0, Bool.false_eq_true, if_false]
    by_cases h1 : s.initializing = true
    · simp [h1]
    · simp only [h1, Bool.false_eq_true, if_false]
      rcases hch : (checkEnvironment env s.basePath).1 with e | u
      · simp only [hch]
        decide
      · simp only [hch]
        rcases hif : eng.initFails with _ | m <;> simp only [hif] <;> decide

/-- C5: when the engine's convert call throws during a conversion, the
converter state is left exactly as initialization left it — still
initialized and still holding the engine reference, so the handle remains
ready and a later conversion needs no re-initialization — and process
returns a ProcessingFailed result carrying the engine error's message as
diagnostic detail. The first conjunct records that a convert call never
mutates the handle state at all. -/
theorem c5_engine_throw (f : File) (c2 : Bool) (s : LibreOfficeConverter) (env : Env)
    (eng : Engine) (m : String)
    (hinit0 : s.initialized = false) (hflag : s.initializing = false)
    (hext : extOf f.name ∈ validExts)
    (hres : ( LibreOfficeConverter.initialize s env eng).result = Except.ok ())
    (hthrow : eng.convertResult = Except.error m) :
    (∀ s2 : LibreOfficeConverter, ( LibreOfficeConverter.convert s2 f eng).state = s2) ∧
    ExcelToPDFProcessor.process [f] false c2 s env eng =
      ⟨createErrorOutput PDFErrorCode.PROCESSING_FAILED msgConvertFailed (some m),
        (5, msgFirstLoad) ::
            ( LibreOfficeConverter.initialize s env eng).events.map
              (fun e => (scalePercent e.percent, e.message)) ++ [(85, msgConverting)],
        ( LibreOfficeConverter.initialize s env eng).calls ++ [EngineCall.convert],
        ( LibreOfficeConverter.initialize s env eng).state⟩ ∧
    ( LibreOfficeConverter.initialize s env eng).state.initialized = true ∧
    ( LibreOfficeConverter.initialize s env eng).state.hasConverter = true ∧
    LibreOfficeConverter.isReady ( LibreOfficeConverter.initialize s env eng).state
      = true := by
  have hst := initialize_ok_state s env eng hinit0 hflag hres
  have hconv : ( LibreOfficeConverter.initialize s env eng).state.hasConverter = true := by
    rw [hst]
  have hinitd : ( LibreOfficeConverter.initialize s env eng).state.initialized = true := by
    rw [hst]
  refine ⟨?_, ?_, hinitd, hconv, ?_⟩
  · intro s2
    unfold LibreOfficeConverter.convert
    by_cases h2 : s2.hasConverter = true
    · rw [h2, hthrow]
      rfl
    · simp only [h2, Bool.false_eq_true, if_false]
  · simp only [ ExcelToPDFProcessor.process]
    rw [if_pos hext]
    simp only [hres]
    simp only [ LibreOfficeConverter.convertToPdf, LibreOfficeConverter.convert, hconv,
      if_true, hthrow]
    rfl
  · unfold LibreOfficeConverter.isReady
    rw [hinitd, hconv]
    rfl

/-- C5 witness: a throwing engine conversion on a fresh handle yields the
ProcessingFailed output with the engine message as detail, leaving the
handle initialized and ready. -/
theorem c5_witness :
    (∀ s2 : LibreOfficeConverter,
        ( LibreOfficeConverter.convert s2 sampleXlsx throwingEngine).state = s2) ∧
    ExcelToPDFProcessor.process [sampleXlsx] false false freshConverter okEnv
        throwingEngine =
      ⟨createErrorOutput PDFErrorCode.PROCESSING_FAILED msgConvertFailed
          (some "conversion failed in worker"),
        (5, msgFirstLoad) ::
            ( LibreOfficeConverter.initialize freshConverter okEnv throwingEngine).events.map
              (fun e => (scalePercent e.percent, e.message)) ++ [(85, msgConverting)],
        ( LibreOfficeConverter.initialize freshConverter okEnv throwingEngine).calls ++
          [EngineCall.convert],
        ( LibreOfficeConverter.initialize freshConverter okEnv throwingEngine).state⟩ ∧
    ( LibreOfficeConverter.initialize freshConverter okEnv
        throwingEngine).state.initialized = true ∧
    ( LibreOfficeConverter.initialize freshConverter okEnv
        throwingEngine).state.hasConverter = true ∧
    LibreOfficeConverter.isReady
        ( LibreOfficeConverter.initialize freshConverter okEnv throwingEngine).state
      = true :=
  c5_engine_throw sampleXlsx false freshConverter okEnv throwingEngine
    "conversion failed in worker" rfl rfl (by decide) rfl rfl

/-- C3 counterexample: with the cancellation flag set from the very start
(both checkpoints observe it set), process still performs the engine
startup — the code has no cancellation check before initialization work —
and only afterwards returns the cancelled result. -/
theorem c3_counterexample :
    ( ExcelToPDFProcessor.process [sampleXlsx] true true freshConverter okEnv
        quietEngine).engineCalls = [EngineCall.startup] ∧
    ( ExcelToPDFProcessor.process [sampleXlsx] true true freshConverter okEnv
        quietEngine).output.code = some PDFErrorCode.PROCESSING_CANCELLED :=
  ⟨rfl, rfl⟩

/-- C3 (amended): process checks the cancellation flag after initialization
(before the conversion call) and again after the conversion call, but not
before initialization work. Whenever the first checkpoint observes the flag
set, process returns the ProcessingCancelled result immediately and the
engine's convert capability is never invoked; whenever the conversion
completed and the second checkpoint observes the flag set, process likewise
returns ProcessingCancelled. -/
theorem c3_checkpoints (f : File) (c2 : Bool) (s : LibreOfficeConverter) (env : Env)
    (eng : Engine) (hext : extOf f.name ∈ validExts)
    (hres : ( LibreOfficeConverter.initialize s env eng).result = Except.ok ()) :
    ( ExcelToPDFProcessor.process [f] true c2 s env eng).output =
        createErrorOutput PDFErrorCode.PROCESSING_CANCELLED msgCancelled none ∧
    EngineCall.convert ∉ ( ExcelToPDFProcessor.process [f] true c2 s env eng).engineCalls ∧
    (∀ d m, eng.convertResult = Except.ok (d, m) →
      ( LibreOfficeConverter.initialize s env eng).state.hasConverter = true →
      ( ExcelToPDFProcessor.process [f] false true s env eng).output =
        createErrorOutput PDFErrorCode.PROCESSING_CANCELLED msgCancelled none) := by
  refine ⟨?_, ?_, ?_⟩
  · simp only [ ExcelToPDFProcessor.process]
    rw [if_pos hext]
    simp only [hres]
    rfl
  · simp only [ ExcelToPDFProcessor.process]
    rw [if_pos hext]
    simp only [hres]
    exact initialize_no_convert s env eng
  · intro d m hcv hhc
    simp only [ ExcelToPDFProcessor.process]
    rw [if_pos hext]
    simp only [hres]
    simp only [ LibreOfficeConverter.convertToPdf, LibreOfficeConverter.convert, hhc,
      if_true, hcv]
    rfl

/-- C3 witness: with the flag observed set at both checkpoints on a healthy
engine, the run is cancelled and the engine convert is never invoked; with
only the post-conversion checkpoint set, the run is likewise cancelled. -/
theorem c3_witness :
    ( ExcelToPDFProcessor.process [sampleXlsx] true true freshConverter okEnv
        quietEngine).output =
        createErrorOutput PDFErrorCode.PROCESSING_CANCELLED msgCancelled none ∧
    EngineCall.convert ∉
      ( ExcelToPDFProcessor.process [sampleXlsx] true true freshConverter okEnv
          quietEngine).engineCalls ∧
    (∀ d m, quietEngine.convertResult = Except.ok (d, m) →
      ( LibreOfficeConverter.initialize freshConverter okEnv
          quietEngine).state.hasConverter = true →
      ( ExcelToPDFProcessor.process [sampleXlsx] false true freshConverter okEnv
          quietEngine).output =
        createErrorOutput PDFErrorCode.PROCESSING_CANCELLED msgCancelled none) :=
  c3_checkpoints sampleXlsx true freshConverter okEnv quietEngine (by decide) rfl

/-- C9: a process call that succeeds on a file named `base.ext`, where the
lowercased `ext` is an allowed spreadsheet extension, returns an artifact
whose filename is `base.pdf`, whose declared format metadata is pdf, and
whose blob carries exactly the mimeType declared by the engine's conversion
result. -/
theorem c9_success_artifact (base ext : Str) (files : List File) (c1 c2 : Bool)
    (s : LibreOfficeConverter) (env : Env) (eng : Engine) (f : File)
    (hfs : files = [f]) (hname : f.name = base ++ '.' :: ext)
    (hext : ext.map Char.toLower ∈ validExts)
    (hsucc : ( ExcelToPDFProcessor.process files c1 c2 s env eng).output.success = true) :
    ( ExcelToPDFProcessor.process files c1 c2 s env eng).output.filename =
        some (base ++ ".pdf".toList) ∧
    ( ExcelToPDFProcessor.process files c1 c2 s env eng).output.metadataFormat =
        some "pdf" ∧
    ∃ d m, eng.convertResult = Except.ok (d, m) ∧
      ( ExcelToPDFProcessor.process files c1 c2 s env eng).output.artifact =
        some ⟨d, m⟩ := by
  obtain ⟨file, d, m, hfiles, _, _, _, hcv, _, _, hrun⟩ :=
    process_success_run files c1 c2 s env eng hsucc
  have hfe : f = file := by
    rw [hfs] at hfiles
    injection hfiles with h1 h2
  rw [hrun]
  refine ⟨?_, rfl, d, m, hcv, rfl⟩
  show some (stripSheetExt file.name ++ ".pdf".toList) = some (base ++ ".pdf".toList)
  rw [← hfe, hname, stripSheetExt_append base ext hext]

/-- C9 witness: a successful conversion of report.xlsx yields report.pdf
with format pdf and the engine's application/pdf mimeType. -/
theorem c9_witness :
    ( ExcelToPDFProcessor.process [sampleXlsx] false false freshConverter okEnv
        quietEngine).output.filename =
        some ("report".toList ++ ".pdf".toList) ∧
    ( ExcelToPDFProcessor.process [sampleXlsx] false false freshConverter okEnv
        quietEngine).output.metadataFormat = some "pdf" ∧
    ∃ d m, quietEngine.convertResult = Except.ok (d, m) ∧
      ( ExcelToPDFProcessor.process [sampleXlsx] false false freshConverter okEnv
          quietEngine).output.artifact = some ⟨d, m⟩ :=
  c9_success_artifact "report".toList "xlsx".toList [sampleXlsx] false false
    freshConverter okEnv quietEngine sampleXlsx rfl (by decide) (by decide) (by decide)

theorem initialize_events (s : LibreOfficeConverter) (env : Env) (eng : Engine)
    (hres : ( LibreOfficeConverter.initialize s env eng).result = Except.ok ()) :
    ( LibreOfficeConverter.initialize s env eng).events = [] ∨
    ( LibreOfficeConverter.initialize s env eng).events =
      ⟨"loading", 0, msgChecking⟩ :: ⟨"loading", 5, msgLoadingEngine⟩ ::
        ((eng.initEvents.map fun pe => LoadProgress.mk pe.1 pe.2 (msgEngineLoading pe.2)) ++
          [⟨"ready", 100, msgEngineReady⟩]) := by
  unfold LibreOfficeConverter.initialize at hres ⊢
  by_cases h0 : s.initialized = true
  · rw [h0] at hres ⊢
    left
    rfl
  · simp only [h0, Bool.false_eq_true, if_false] at hres ⊢
    by_cases h1 : s.initializing = true
    · rw [h1] at hres ⊢
      left
      rfl
    · simp only [h1, Bool.false_eq_true, if_false] at hres ⊢
      simp only [initializeBody] at hres ⊢
      rcases hch : (checkEnvironment env s.basePath).1 with e | u
      · simp only [hch] at hres
        simp at hres
      · simp only [hch] at hres ⊢
        rcases hif : eng.initFails with _ | mm
        · simp only [hif]
          right
          trivial
        · simp only [hif] at hres
          simp at hres

theorem getLast?_cons_append_pair (a b c : ℚ) (L : List ℚ) :
    (a :: (L ++ [b, c])).getLast? = some c := by
  rw [show a :: (L ++ [b, c]) = (a :: L ++ [b]) ++ [c] by simp]
  exact List.getLast?_concat _

/-- C1 counterexample: a successful fresh-initialization run emits the
percent sequence 5, 0, 4, 80, 85, 100 — the gateway's own initial 5%
message is followed by the scaled 0% environment-check message, so the
sequence delivered to the caller is not monotonically non-decreasing (it
does end at 100). -/
theorem c1_counterexample :
    ( ExcelToPDFProcessor.process [sampleXlsx] false false freshConverter okEnv
        quietEngine).output.success = true ∧
    ( ExcelToPDFProcessor.process [sampleXlsx] false false freshConverter okEnv
        quietEngine).progress.map Prod.fst = [5, 0, 4, 80, 85, 100] ∧
    ¬ List.Chain' (· ≤ ·)
        (( ExcelToPDFProcessor.process [sampleXlsx] false false freshConverter okEnv
            quietEngine).progress.map Prod.fst) := by
  have h : ( ExcelToPDFProcessor.process [sampleXlsx] false false freshConverter okEnv
      quietEngine).progress.map Prod.fst =
      [5, scalePercent 0, scalePercent 5, scalePercent 100, 85, 100] := rfl
  have h2 : ( ExcelToPDFProcessor.process [sampleXlsx] false false freshConverter okEnv
      quietEngine).progress.map Prod.fst = [5, 0, 4, 80, 85, 100] := by
    rw [h]
    unfold scalePercent
    norm_num
  refine ⟨rfl, h2, ?_⟩
  rw [h2]
  intro hc
  have h5le0 := (List.chain'_cons.mp hc).1
  norm_num at h5le0

/-- C1 (amended): for every successful process call the last emitted percent
is exactly 100, and — provided the engine's own startup percents are
non-decreasing and start at or above 5 — the emitted percents are
monotonically non-decreasing from the second emitted value onward; the
gateway's initial 5% message may exceed the scaled initialization values
that follow it, so monotonicity of the full sequence fails. -/
theorem c1_progress_tail (files : List File) (c1 c2 : Bool) (s : LibreOfficeConverter)
    (env : Env) (eng : Engine)
    (hsucc : ( ExcelToPDFProcessor.process files c1 c2 s env eng).output.success = true)
    (hchain : List.Chain' (· ≤ ·) (eng.initEvents.map Prod.snd))
    (h5 : ∀ pe ∈ eng.initEvents, 5 ≤ pe.2) :
    (( ExcelToPDFProcessor.process files c1 c2 s env eng).progress.map
        Prod.fst).getLast? = some 100 ∧
    List.Chain' (· ≤ ·)
      ((( ExcelToPDFProcessor.process files c1 c2 s env eng).progress.map
          Prod.fst).tail) := by
  obtain ⟨file, d, m, hfiles, hext, hc1, hc2, hcv, hres, hhc, hrun⟩ :=
    process_success_run files c1 c2 s env eng hsucc
  rw [hrun]
  constructor
  · simp only [List.map_cons, List.map_append, List.map_nil, List.cons_append,
      List.nil_append, List.append_assoc]
    exact getLast?_cons_append_pair 5 85 100 _
  · rcases initialize_events s env eng hres with hev | hev
    · simp only [hev]
      simp only [List.map_nil, List.nil_append, List.map_cons, List.map_append,
        List.cons_append, List.tail_cons]
      norm_num [List.chain'_cons]
    · simp only [hev]
      simp only [List.map_cons, List.map_append, List.map_map, List.cons_append,
        List.tail_cons, List.append_assoc, Function.comp]
      have hc := chain_tail_scaled eng.initEvents hchain h5
      simpa using hc

/-- C1 witness: with an engine whose startup percents are 10 then 60, a
successful run's percents end at 100 and are non-decreasing from the second
value onward. -/
theorem c1_witness :
    (( ExcelToPDFProcessor.process [sampleXlsx] false false freshConverter okEnv
        steadyEngine).progress.map Prod.fst).getLast? = some 100 ∧
    List.Chain' (· ≤ ·)
      ((( ExcelToPDFProcessor.process [sampleXlsx] false false freshConverter okEnv
          steadyEngine).progress.map Prod.fst).tail) :=
  c1_progress_tail [sampleXlsx] false false freshConverter okEnv steadyEngine
    (by decide)
    (by
      simp only [steadyEngine, List.map_cons, List.map_nil]
      norm_num [List.chain'_cons, List.chain'_singleton])
    (by
      intro pe hpe
      simp only [steadyEngine, List.mem_cons, List.not_mem_nil, or_false] at hpe
      rcases hpe with h | h <;> rw [h] <;> norm_num)
